import Mathlib

/-!
Verification of the request-to-path resolution and response-construction
pipeline of the `basic-http-server` program (src/main.rs, src/ext.rs).

Strings that cross the HTTP/filesystem boundary are modelled at the byte
level (`List Nat`, each element < 256), since percent-decoding and UTF-8
validation operate on raw bytes.  Filesystem paths are lists of components
(each a byte string), mirroring `std::path::PathBuf` component semantics.
The operating system and the collaborator libraries (handlebars, comrak,
mime_guess, base64) are modelled as oracle functions gathered in a `World`
structure; the repository's own control flow is translated faithfully.
-/

namespace BHS

/-- Byte string: a list of byte values. -/
abbrev Bytes := List Nat

/-- Bytes of an ASCII string literal (codepoint = byte for ASCII). -/
def ascii (s : String) : Bytes := s.data.map Char.toNat

/-- A filesystem path as a list of components, as in `std::path::Path`
components (absolute, rooted at the filesystem root). -/
abbrev FsPath := List Bytes

/- ### Percent-encoding (percent_encoding crate, sets from src/ext.rs) -/

/-- The `CONTROLS` ascii set of the percent-encoding crate. -/
def inControls (b : Nat) : Bool := b < 32 || b == 127

/-- `FRAGMENT_SET` from src/ext.rs: CONTROLS plus space, quote, angle
brackets and backtick. -/
def inFragmentSet (b : Nat) : Bool :=
  inControls b || b == 32 || b == 34 || b == 60 || b == 62 || b == 96

/-- `PATH_SET` from src/ext.rs: FRAGMENT_SET plus hash, question mark and
braces. -/
def inPathSet (b : Nat) : Bool :=
  inFragmentSet b || b == 35 || b == 63 || b == 123 || b == 125

/-- Upper-case hex digit for a nibble, as emitted by the
percent-encoding crate. -/
def hexUpperDigit (n : Nat) : Nat := if n < 10 then 48 + n else 55 + n

/-- A percent-encoded byte: `%XY` with upper-case hex digits. -/
def percentEncodeByte (b : Nat) : Bytes := [37, hexUpperDigit (b / 16), hexUpperDigit (b % 16)]

/-- `utf8_percent_encode` with the `PATH_SET` from src/ext.rs: a byte is
encoded iff it is non-ASCII or a member of the set. -/
def utf8_percent_encode : Bytes → Bytes
  | [] => []
  | b :: rest =>
    (if 128 ≤ b || inPathSet b then percentEncodeByte b else [b]) ++ utf8_percent_encode rest

/-- Value of a hex digit byte, case-insensitive. -/
def hexVal (c : Nat) : Option Nat :=
  if 48 ≤ c ∧ c ≤ 57 then some (c - 48)
  else if 65 ≤ c ∧ c ≤ 70 then some (c - 55)
  else if 97 ≤ c ∧ c ≤ 102 then some (c - 87)
  else none

/-- `percent_decode` from the percent-encoding crate: a `%` followed by two
hex digits decodes to the byte; otherwise the `%` is passed through and
scanning resumes at the next byte. -/
def percent_decode : Bytes → Bytes
  | [] => []
  | c :: a :: b :: rest2 =>
    if c = 37 then
      match hexVal a, hexVal b with
      | some x, some y => (16 * x + y) :: percent_decode rest2
      | _, _ => 37 :: percent_decode (a :: b :: rest2)
    else c :: percent_decode (a :: b :: rest2)
  | c :: rest => c :: percent_decode rest

/- ### UTF-8 validity (RFC 3629 table, as checked by `str::from_utf8`) -/

/-- UTF-8 continuation byte. -/
def isCont (b : Nat) : Bool := 128 ≤ b && b ≤ 191

/-- UTF-8 validity of a byte sequence, following the RFC 3629 table used by
`str::from_utf8` / `String::from_utf8` / `decode_utf8`. -/
def utf8Valid : Bytes → Bool
  | [] => true
  | b :: rest =>
    if b < 128 then utf8Valid rest
    else if 194 ≤ b && b ≤ 223 then
      match rest with
      | c1 :: r => isCont c1 && utf8Valid r
      | [] => false
    else if b == 224 then
      match rest with
      | c1 :: c2 :: r => (160 ≤ c1 && c1 ≤ 191) && isCont c2 && utf8Valid r
      | _ => false
    else if 225 ≤ b && b ≤ 236 then
      match rest with
      | c1 :: c2 :: r => isCont c1 && isCont c2 && utf8Valid r
      | _ => false
    else if b == 237 then
      match rest with
      | c1 :: c2 :: r => (128 ≤ c1 && c1 ≤ 159) && isCont c2 && utf8Valid r
      | _ => false
    else if 238 ≤ b && b ≤ 239 then
      match rest with
      | c1 :: c2 :: r => isCont c1 && isCont c2 && utf8Valid r
      | _ => false
    else if b == 240 then
      match rest with
      | c1 :: c2 :: c3 :: r => (144 ≤ c1 && c1 ≤ 191) && isCont c2 && isCont c3 && utf8Valid r
      | _ => false
    else if 241 ≤ b && b ≤ 243 then
      match rest with
      | c1 :: c2 :: c3 :: r => isCont c1 && isCont c2 && isCont c3 && utf8Valid r
      | _ => false
    else if b == 244 then
      match rest with
      | c1 :: c2 :: c3 :: r => (128 ≤ c1 && c1 ≤ 143) && isCont c2 && isCont c3 && utf8Valid r
      | _ => false
    else false

/- ### Path operations (std::path semantics) -/

/-- Split a relative byte string into path components (empty components are
skipped, as by `Path::components`). -/
def splitComponents (s : Bytes) : FsPath :=
  (s.splitOn 47).filter (· ≠ [])

/-- `PathBuf::push`: pushing an absolute path (leading `/`) replaces the
whole path; otherwise the components are appended. -/
def pathPush (base : FsPath) (rel : Bytes) : FsPath :=
  if rel.head? = some 47 then splitComponents rel else base ++ splitComponents rel

/-- `Path::file_name`: the last component, or `none` for a path ending in
`..` (or the empty path). -/
def path_file_name (p : FsPath) : Option Bytes :=
  match p.getLast? with
  | none => none
  | some c => if c = ascii ".." then none else some c

/-- Index of the last occurrence of a byte in a byte string. -/
def lastIndexOf (x : Nat) : Bytes → Option Nat
  | [] => none
  | y :: t =>
    match lastIndexOf x t with
    | some i => some (i + 1)
    | none => if y = x then some 0 else none

/-- `Path::extension`: the part of the file name after the last dot, absent
when there is no file name, no dot, or the only dot is leading. -/
def path_extension (p : FsPath) : Option Bytes :=
  match path_file_name p with
  | none => none
  | some name =>
    match lastIndexOf 46 name with
    | none => none
    | some 0 => none
    | some k => some (name.drop (k + 1))

/-- The components of a relative path joined with `/`, as `Path::to_str`
would show it. -/
def joinComponents (p : FsPath) : Bytes := (p.intersperse [47]).flatten

/- ### Error types (src/main.rs `Error`, src/ext.rs `ext::Error`) -/

/-- The two classes of `std::io::ErrorKind` the program distinguishes. -/
inductive IoErrorKind where
  | notFound
  | otherError
deriving DecidableEq, Repr

mutual

/-- `Error` from src/main.rs.  Payloads the program never inspects
(`http::Error`, `hyper::Error`, parse errors, template-render errors) are
modelled as bare constructors. -/
inductive Error where
  | Ext (e : ExtError)
  | Http
  | Hyper
  | Io (e : IoErrorKind)
  | AddrParse
  | TemplateRender
  | UriNotAbsolute
  | UriNotUtf8
  | EntityNotInRoot

/-- `ext::Error` from src/ext.rs. -/
inductive ExtError where
  | Engine (e : Error)
  | Http
  | Io (e : IoErrorKind)
  | MarkdownUtf8
  | StripPrefixInDirList
  | WriteInDirList

end

deriving instance DecidableEq for Error, ExtError

deriving instance DecidableEq for Except

/-- The `Display` string of a `std::io::Error`, abstracted (the program
only interpolates it). -/
def ioErrorDisplay : IoErrorKind → Bytes
  | .notFound => ascii "entity not found"
  | .otherError => ascii "other os error"

/-- The `derive(Display)` strings of `Error` from src/main.rs. -/
def errorDisplay : Error → Bytes
  | .Ext _ => ascii "Extension error"
  | .Http => ascii "HTTP error"
  | .Hyper => ascii "Hyper error"
  | .Io _ => ascii "I/O error"
  | .AddrParse => ascii "failed to parse IP address"
  | .TemplateRender => ascii "failed to render template"
  | .UriNotAbsolute => ascii "requested URI is not an absolute path"
  | .UriNotUtf8 => ascii "requested URI is not UTF-8"
  | .EntityNotInRoot => ascii "requested file or directory is not in the root directory"

/- ### HTTP request/response model -/

/-- The HTTP header names the program sets. -/
inductive HeaderName where
  | location
  | contentLength
  | contentType
  | wwwAuthenticate
  | allow
deriving DecidableEq, Repr

/-- A header value: raw bytes or a numeric value (for Content-Length). -/
inductive HeaderValue where
  | bytes (b : Bytes)
  | nat (n : Nat)
deriving DecidableEq, Repr

/-- A response body: empty, a string body, or a streamed file body. -/
inductive RespBody where
  | empty
  | bytes (b : Bytes)
deriving DecidableEq, Repr

/-- An HTTP response as the program constructs it. -/
structure HttpResponse where
  status : Nat
  headers : List (HeaderName × HeaderValue)
  body : RespBody
deriving DecidableEq, Repr

/-- Request methods: GET or anything else (the program only distinguishes
GET). -/
inductive Method where
  | GET
  | otherMethod
deriving DecidableEq, Repr

/-- An incoming HTTP request: the method, the URI path (`uri.path()`, which
excludes the query), the optional query string, and the optional
Authorization header. -/
structure HttpRequest where
  method : Method
  uriPath : Bytes
  query : Option Bytes
  authorization : Option Bytes
deriving DecidableEq, Repr

/-- File metadata, as inspected via `tokio::fs::metadata`. -/
structure FsMeta where
  is_dir : Bool
  len : Nat
deriving DecidableEq, Repr

/-- The data handed to the handlebars template (src/main.rs `HtmlCfg`). -/
structure HtmlCfg where
  title : Bytes
  body : Bytes
deriving DecidableEq, Repr

/-- `comrak::ComrakOptions`, restricted to the fields src/ext.rs sets. -/
structure ComrakOptions where
  ext_autolink : Bool
  ext_header_ids : Option Bytes
  ext_table : Bool
  ext_strikethrough : Bool
  ext_tagfilter : Bool
  ext_tasklist : Bool
  github_pre_lang : Bool
deriving DecidableEq, Repr

/-- `ComrakOptions::default()`: every extension off. -/
def comrakDefault : ComrakOptions :=
  { ext_autolink := false, ext_header_ids := none, ext_table := false,
    ext_strikethrough := false, ext_tagfilter := false, ext_tasklist := false,
    github_pre_lang := false }

/-- The operating system and collaborator libraries, as oracles.  Each
field models one external call the program makes; the program's own logic
never looks inside them. -/
structure World where
  /-- `Path::canonicalize`: resolves `.`, `..` and symlinks; errors when
  the path does not point to an existing entity. -/
  canonicalize : FsPath → Except IoErrorKind FsPath
  /-- `Path::is_dir`. -/
  is_dir : FsPath → Bool
  /-- `tokio::fs::File::open` followed by streaming: yields the contents. -/
  open_file : FsPath → Except IoErrorKind Bytes
  /-- `tokio::fs::metadata`. -/
  metadata : FsPath → Except IoErrorKind FsMeta
  /-- `tokio::fs::read` (used by the markdown extension). -/
  read_file : FsPath → Except IoErrorKind Bytes
  /-- `tokio::fs::read_dir`: the entries in directory order; `none` marks
  an entry whose read errored (warned about and skipped by the program). -/
  read_dir : FsPath → Except IoErrorKind (List (Option FsPath))
  /-- handlebars `render_template` applied to the embedded HTML_TEMPLATE. -/
  render_template : HtmlCfg → Except Unit Bytes
  /-- `comrak::markdown_to_html`. -/
  markdown_to_html : Bytes → ComrakOptions → Bytes
  /-- `mime_guess::from_path(..).first()`. -/
  mime_guess : FsPath → Option Bytes
  /-- `base64::decode`. -/
  base64_decode : Bytes → Except Unit Bytes

/-- `Auth` from src/main.rs. -/
structure Auth where
  username : Bytes
  password : Bytes
deriving DecidableEq, Repr

/-- `Config` from src/main.rs (the served fields; the bind address does not
take part in request handling).  `root_dir` is the canonicalized root. -/
structure Config where
  root_dir : FsPath
  use_extensions : Bool
  allow_escape_root : Bool
  auth : Option Auth

/- ### Path ordering (`PathBuf`'s `Ord`: lexicographic over components,
components compared bytewise) -/

/-- Three-way comparison on naturals (byte values). -/
def natCmp (a b : Nat) : Ordering := if a < b then .lt else if b < a then .gt else .eq

/-- Lexicographic comparison of lists from a comparison on elements. -/
def lexCmp (cmp : α → α → Ordering) : List α → List α → Ordering
  | [], [] => .eq
  | [], _ :: _ => .lt
  | _ :: _, [] => .gt
  | x :: xs, y :: ys =>
    match cmp x y with
    | .eq => lexCmp cmp xs ys
    | o => o

/-- `PathBuf`'s comparison. -/
def pathCmp (a b : FsPath) : Ordering := lexCmp (lexCmp natCmp) a b

/-- `a <= b` for paths, as used by `slice::sort`. -/
def pathLe (a b : FsPath) : Bool :=
  match pathCmp a b with
  | .gt => false
  | _ => true

/-- `pathLe` as a decidable relation, for `List.insertionSort`. -/
def pathLeProp (a b : FsPath) : Prop := pathLe a b = true

instance : DecidableRel pathLeProp := fun a b => instDecidableEqBool (pathLe a b) true

/- ### src/main.rs: path resolution -/

/-- `local_path_for_request` (src/main.rs): strip the query,
percent-decode, require UTF-8 and a leading `/`, and join onto the root. -/
def local_path_for_request (root_dir : FsPath) (uriPath : Bytes) : Except Error FsPath :=
  let request_path := uriPath.takeWhile (· ≠ 63)
  let decoded := percent_decode request_path
  if utf8Valid decoded then
    if decoded.head? = some 47 then .ok (pathPush root_dir (decoded.drop 1))
    else .error .UriNotAbsolute
  else .error .UriNotUtf8

/-- `local_path_with_maybe_index` (src/main.rs): append `index.html` when
the resolved path is a directory. -/
def local_path_with_maybe_index (w : World) (root_dir : FsPath) (uriPath : Bytes) :
    Except Error FsPath :=
  (local_path_for_request root_dir uriPath).map fun p =>
    if w.is_dir p then p ++ [ascii "index.html"] else p

/-- `Config::check_in_root_dir` (src/main.rs): canonicalize, then require
descent from the root unless `allow_escape_root`. -/
def check_in_root_dir (w : World) (cfg : Config) (path : FsPath) : Except Error FsPath :=
  match w.canonicalize path with
  | .error e => .error (.Io e)
  | .ok path =>
    if cfg.allow_escape_root || cfg.root_dir.isPrefixOf path then .ok path
    else .error .EntityNotInRoot

/-- `check_auth` helper: `str::eq_ignore_ascii_case`. -/
def eqIgnoreAsciiCase (a b : Bytes) : Bool :=
  a.map (fun c => if 65 ≤ c ∧ c ≤ 90 then c + 32 else c) ==
    b.map (fun c => if 65 ≤ c ∧ c ≤ 90 then c + 32 else c)

/-- `str::trim` (whitespace at both ends; the values involved are ASCII). -/
def trimBytes (s : Bytes) : Bytes :=
  ((s.dropWhile isWs).reverse.dropWhile isWs).reverse
where isWs (b : Nat) : Bool := b == 32 || b == 9 || b == 10 || b == 13

/-- `Auth::from_str` (src/main.rs): `splitn(2, ':')`, missing password
defaults to empty.  Never fails. -/
def authFromStr (s : Bytes) : Auth :=
  { username := s.takeWhile (· ≠ 58), password := (s.dropWhile (· ≠ 58)).drop 1 }

/-- `HeaderValue::to_str` succeeds only for visible-ASCII-plus-space
bytes. -/
def headerValueIsStr (s : Bytes) : Bool := s.all fun b => 32 ≤ b && b < 127

/-- `Config::check_auth` (src/main.rs). -/
def check_auth (w : World) (cfg : Config) (req : HttpRequest) : Bool :=
  match cfg.auth with
  | none => true
  | some reference_auth =>
    match req.authorization with
    | none => false
    | some auth_header =>
      if ¬ headerValueIsStr auth_header then false
      else if auth_header.length < 6 then false
      else if ¬ eqIgnoreAsciiCase (auth_header.take 6) (ascii "basic ") then false
      else
        match w.base64_decode (trimBytes (auth_header.drop 6)) with
        | .error _ => false
        | .ok decoded =>
          if utf8Valid decoded then authFromStr decoded == reference_auth else false

/- ### src/main.rs: response construction -/

/-- `Display` for `http::StatusCode` (code plus canonical reason). -/
def statusDisplay (status : Nat) : Bytes :=
  if status = 200 then ascii "200 OK"
  else if status = 302 then ascii "302 Found"
  else if status = 401 then ascii "401 Unauthorized"
  else if status = 403 then ascii "403 Forbidden"
  else if status = 404 then ascii "404 Not Found"
  else if status = 405 then ascii "405 Method Not Allowed"
  else if status = 500 then ascii "500 Internal Server Error"
  else ascii (toString status)

/-- `render_html` (src/main.rs): handlebars on the embedded template;
failure becomes `Error::TemplateRender`. -/
def render_html (w : World) (cfg : HtmlCfg) : Except Error Bytes :=
  match w.render_template cfg with
  | .error _ => .error .TemplateRender
  | .ok s => .ok s

/-- `render_error_html` (src/main.rs): title is the status line, empty
body. -/
def render_error_html (w : World) (status : Nat) : Except Error Bytes :=
  render_html w { title := statusDisplay status, body := [] }

/-- `html_str_to_response_with_headers` (src/main.rs). -/
def html_str_to_response_with_headers (body : Bytes) (status : Nat)
    (headers : List (HeaderName × HeaderValue)) : Except Error HttpResponse :=
  .ok { status := status,
        headers := headers ++
          [(.contentLength, .nat body.length), (.contentType, .bytes (ascii "text/html"))],
        body := .bytes body }

/-- `html_str_to_response` (src/main.rs). -/
def html_str_to_response (body : Bytes) (status : Nat) : Except Error HttpResponse :=
  html_str_to_response_with_headers body status []

/-- `make_error_response_from_code_and_headers` (src/main.rs). -/
def make_error_response_from_code_and_headers (w : World) (status : Nat)
    (headers : List (HeaderName × HeaderValue)) : Except Error HttpResponse :=
  match render_error_html w status with
  | .error e => .error e
  | .ok body => html_str_to_response_with_headers body status headers

/-- `make_error_response_from_code` (src/main.rs). -/
def make_error_response_from_code (w : World) (status : Nat) : Except Error HttpResponse :=
  make_error_response_from_code_and_headers w status []

/-- `make_internal_server_error_response` (src/main.rs): logs and renders a
500. -/
def make_internal_server_error_response (w : World) (_err : Error) :
    Except Error HttpResponse :=
  make_error_response_from_code w 500

/-- `make_io_error_response` (src/main.rs): 404 for NotFound, 500
otherwise. -/
def make_io_error_response (w : World) (e : IoErrorKind) : Except Error HttpResponse :=
  match e with
  | .notFound => make_error_response_from_code w 404
  | _ => make_internal_server_error_response w (.Io e)

/-- `make_error_response` (src/main.rs): the error-to-status mapping. -/
def make_error_response (w : World) (e : Error) : Except Error HttpResponse :=
  match e with
  | .Io e => make_io_error_response w e
  | .Ext (.Io e) => make_io_error_response w e
  | .EntityNotInRoot => make_error_response_from_code w 403
  | e => make_internal_server_error_response w e

/-- `transform_error` (src/main.rs): total; falls back to a bare-text
response when rendering the error page itself fails
(`Response::new` carries the default status 200 and no headers). -/
def transform_error (w : World) (resp : Except Error HttpResponse) : HttpResponse :=
  match resp with
  | .ok r => r
  | .error e =>
    match make_error_response w e with
    | .ok r => r
    | .error e2 =>
      { status := 200, headers := [],
        body := .bytes (ascii "unexpected internal error: " ++ errorDisplay e2) }

/-- `get_unsupported_request_message` (src/main.rs): non-GET yields 405
with `Allow: GET`. -/
def get_unsupported_request_message (req : HttpRequest) :
    Option (Nat × List (HeaderName × HeaderValue)) :=
  if req.method ≠ .GET then some (405, [(.allow, .bytes (ascii "GET"))]) else none

/-- `handle_unsupported_request` (src/main.rs). -/
def handle_unsupported_request (w : World) (req : HttpRequest) :
    Option (Except Error HttpResponse) :=
  (get_unsupported_request_message req).map fun u =>
    make_error_response_from_code_and_headers w u.1 u.2

/-- `file_path_mime` (src/main.rs): guessed MIME or
application/octet-stream. -/
def file_path_mime (w : World) (file_path : FsPath) : Bytes :=
  (w.mime_guess file_path).getD (ascii "application/octet-stream")

/-- `respond_with_file` (src/main.rs): re-check containment, open, stream
with Content-Length from metadata. -/
def respond_with_file (w : World) (cfg : Config) (path : FsPath) :
    Except Error HttpResponse :=
  match check_in_root_dir w cfg path with
  | .error e => .error e
  | .ok _ =>
    let mime_type := file_path_mime w path
    match w.open_file path with
    | .error e => .error (.Io e)
    | .ok contents =>
      .ok { status := 200,
            headers := [(.contentLength, .nat contents.length),
                        (.contentType, .bytes mime_type)],
            body := .bytes contents }

/-- `try_dir_redirect` (src/main.rs): 302 with a trailing slash added for
directory URLs that lack one. -/
def try_dir_redirect (w : World) (cfg : Config) (req : HttpRequest) :
    Except Error (Option HttpResponse) :=
  if req.uriPath.getLast? = some 47 then .ok none
  else
    match local_path_for_request cfg.root_dir req.uriPath with
    | .error e => .error e
    | .ok path =>
      if ¬ w.is_dir path then .ok none
      else
        let new_loc := req.uriPath ++ [47] ++
          (match req.query with
           | some q => 63 :: q
           | none => [])
        .ok (some { status := 302, headers := [(.location, .bytes new_loc)], body := .empty })

/-- `serve_file` (src/main.rs): redirect first, then resolve (with index
append) and respond. -/
def serve_file (w : World) (cfg : Config) (req : HttpRequest) :
    Except Error HttpResponse :=
  match try_dir_redirect w cfg req with
  | .error e => .error e
  | .ok (some redir_resp) => .ok redir_resp
  | .ok none =>
    match local_path_with_maybe_index w cfg.root_dir req.uriPath with
    | .error e => .error e
    | .ok path => respond_with_file w cfg path

/- ### src/ext.rs: developer extensions -/

/-- The markdown rendering options set in `md_path_to_html`
(src/ext.rs): GitHub-flavored, heading ids prefixed `user-content-`. -/
def mdComrakOptions : ComrakOptions :=
  { comrakDefault with
    ext_autolink := true,
    ext_header_ids := some (ascii "user-content-"),
    ext_table := true,
    ext_strikethrough := true,
    ext_tagfilter := true,
    ext_tasklist := true,
    github_pre_lang := true }

/-- `md_path_to_html` (src/ext.rs): read, require UTF-8, render markdown,
wrap in the template, answer 200 text/html. -/
def md_path_to_html (w : World) (path : FsPath) : Except ExtError HttpResponse :=
  match w.read_file path with
  | .error e => .error (.Io e)
  | .ok buf =>
  if utf8Valid buf then
    let html := w.markdown_to_html buf mdComrakOptions
    match render_html w { title := [], body := html } with
    | .error e => .error (ExtError.Engine e)
    | .ok html =>
      .ok { status := 200,
            headers := [(.contentLength, .nat html.length),
                        (.contentType, .bytes (ascii "text/html"))],
            body := .bytes html }
  else .error ExtError.MarkdownUtf8

/-- `TEXT_EXTENSIONS` (src/ext.rs). -/
def TEXT_EXTENSIONS : List Bytes :=
  [ascii "c", ascii "cc", ascii "cpp", ascii "csv", ascii "fst", ascii "h",
   ascii "java", ascii "md", ascii "mk", ascii "proto", ascii "py", ascii "rb",
   ascii "rs", ascii "rst", ascii "sh", ascii "toml", ascii "yml"]

/-- `TEXT_FILES` (src/ext.rs). -/
def TEXT_FILES : List Bytes :=
  [ascii ".gitattributes", ascii ".gitignore", ascii ".mailmap", ascii "AUTHORS",
   ascii "CODE_OF_CONDUCT", ascii "CONTRIBUTING", ascii "COPYING", ascii "COPYRIGHT",
   ascii "Cargo.lock", ascii "LICENSE", ascii "LICENSE-APACHE", ascii "LICENSE-MIT",
   ascii "Makefile", ascii "rust-toolchain"]

/-- `s.rsplit(sep).next()`: the segment after the last separator (the
whole string when the separator is absent). -/
def rsplitNextAfter (sep : Nat) (s : Bytes) : Bytes :=
  match lastIndexOf sep s with
  | none => s
  | some k => s.drop (k + 1)

/-- `HeaderMap::insert`: replace any existing value for the name. -/
def headersInsert (hs : List (HeaderName × HeaderValue)) (n : HeaderName)
    (v : HeaderValue) : List (HeaderName × HeaderValue) :=
  hs.filter (fun h => h.1 ≠ n) ++ [(n, v)]

/-- `maybe_convert_mime_type_to_text` (src/ext.rs): force text/plain for
the fixed allow-list of source/text names. -/
def maybe_convert_mime_type_to_text (req : HttpRequest) (resp : HttpResponse) :
    HttpResponse :=
  let file_name := rsplitNextAfter 47 req.uriPath
  let ext := rsplitNextAfter 46 file_name
  let do_convert := TEXT_EXTENSIONS.contains ext || TEXT_FILES.contains file_name
  if do_convert then
    { resp with
      headers := headersInsert resp.headers .contentType (.bytes (ascii "text/plain")) }
  else resp

/-- One entry line of `make_dir_list_body` (src/ext.rs): the `..` entry
keeps its name via the `maybe_dot_dot` fallback; entries whose name or
stripped URL is not UTF-8 produce no line (warned and skipped). -/
def dir_list_line_content (root_dir : FsPath) (path : FsPath) : Option Bytes :=
  let full_url := path.drop root_dir.length
  let file_name :=
    match path_file_name path with
    | some f => some f
    | none => if path.getLast? = some (ascii "..") then some (ascii "..") else none
  match file_name with
  | none => none
  | some file_name =>
    if utf8Valid file_name then
      let urlBytes := joinComponents full_url
      if utf8Valid urlBytes then
        some (ascii "<div><a href=\x27/" ++ utf8_percent_encode urlBytes ++ ascii "\x27>" ++
              file_name ++ ascii "</a></div>\n")
      else none
    else none

/-- One loop iteration of `make_dir_list_body`: `strip_prefix` failure
aborts the listing with `StripPrefixInDirList`. -/
def dir_list_line (root_dir : FsPath) (path : FsPath) : Except ExtError (Option Bytes) :=
  if root_dir.isPrefixOf path then .ok (dir_list_line_content root_dir path)
  else .error ExtError.StripPrefixInDirList

/-- The loop of `make_dir_list_body`: the concatenated entry lines, or the
first `strip_prefix` failure. -/
def dir_list_lines (root_dir : FsPath) : List FsPath → Except ExtError Bytes
  | [] => .ok []
  | path :: rest =>
    match dir_list_line root_dir path with
    | .error e => .error e
    | .ok line =>
      match dir_list_lines root_dir rest with
      | .error e => .error e
      | .ok out => .ok (line.getD [] ++ out)

/-- `make_dir_list_body` (src/ext.rs): the entry lines between a `<div>`
pair, wrapped in the shared template. -/
def make_dir_list_body (w : World) (root_dir : FsPath) (paths : List FsPath) :
    Except ExtError Bytes :=
  match dir_list_lines root_dir paths with
  | .error e => .error e
  | .ok lines =>
    let buf := ascii "<div>\n" ++ lines ++ ascii "</div>\n"
    match render_html w { title := [], body := buf } with
    | .error e => .error (ExtError.Engine e)
    | .ok out => .ok out

/-- `list_dir` (src/ext.rs): read the entries (erroring entries skipped),
sort, list `..` first, render, answer 200.  `Vec::sort` is a stable sort
with respect to `PathBuf`'s order; any two stable sorts agree, so it is
modelled by the structurally recursive stable `insertionSort`. -/
def list_dir (w : World) (root_dir : FsPath) (path : FsPath) :
    Except ExtError HttpResponse :=
  let up_dir := path ++ [ascii ".."]
  match w.read_dir path with
  | .error e => .error (.Io e)
  | .ok dents =>
    let paths := (dents.filterMap id).insertionSort pathLeProp
    let allPaths := up_dir :: paths
    match make_dir_list_body w root_dir allPaths with
    | .error e => .error e
    | .ok html =>
      match html_str_to_response html 200 with
      | .error e => .error (ExtError.Engine e)
      | .ok resp => .ok resp

/-- `maybe_list_dir` (src/ext.rs). -/
def maybe_list_dir (w : World) (root_dir : FsPath) (path : FsPath) :
    Except ExtError (Option HttpResponse) :=
  match w.metadata path with
  | .error e => .error (.Io e)
  | .ok meta =>
    if meta.is_dir then
      match list_dir w root_dir path with
      | .error e => .error e
      | .ok r => .ok (some r)
    else .ok none

/-- `ext::serve` (src/ext.rs): the extension chain. -/
def ext_serve (w : World) (cfg : Config) (req : HttpRequest)
    (resp : Except Error HttpResponse) : Except Error HttpResponse :=
  if ¬ cfg.use_extensions then resp
  else
    match local_path_for_request cfg.root_dir req.uriPath with
    | .error e => .error e
    | .ok path =>
      if (path_extension path).getD [] = ascii "md" then
        match md_path_to_html w path with
        | .error e => .error (.Ext e)
        | .ok r => .ok r
      else
        match resp with
        | .ok resp => .ok (maybe_convert_mime_type_to_text req resp)
        | .error (.Io e) =>
          if e = .notFound then
            match maybe_list_dir w cfg.root_dir path with
            | .error e2 => .error (.Ext e2)
            | .ok (some f) => .ok f
            | .ok none => .error (.Io e)
          else .error (.Io e)
        | r => r

/- ### src/main.rs: top level -/

/-- The literal WWW-Authenticate value from src/main.rs (note the
misspelled parameter name `relm`). -/
def wwwAuthenticateValue : Bytes :=
  ascii "Basic relm=\"User Visible Realm\", charset=\"UTF-8\""

/-- `serve_or_error` (src/main.rs): method check, auth check, file
serving, extension chain. -/
def serve_or_error (w : World) (cfg : Config) (req : HttpRequest) :
    Except Error HttpResponse :=
  match handle_unsupported_request w req with
  | some resp => resp
  | none =>
    if ¬ check_auth w cfg req then
      make_error_response_from_code_and_headers w 401
        [(.wwwAuthenticate, .bytes wwwAuthenticateValue)]
    else
      ext_serve w cfg req (serve_file w cfg req)

/-- `serve` (src/main.rs): the whole per-request pipeline; total. -/
def serve (w : World) (cfg : Config) (req : HttpRequest) : HttpResponse :=
  transform_error w (serve_or_error w cfg req)

/-! ## Order lemmas for the path comparison -/

theorem natCmp_eq_iff {a b : Nat} : natCmp a b = .eq ↔ a = b := by
  unfold natCmp
  split_ifs <;> simp_all <;> omega

theorem natCmp_swap (a b : Nat) : natCmp a b = (natCmp b a).swap := by
  unfold natCmp
  split_ifs <;> simp_all [Ordering.swap] <;> omega

theorem natCmp_lt_trans {a b c : Nat} (h1 : natCmp a b = .lt) (h2 : natCmp b c = .lt) :
    natCmp a c = .lt := by
  unfold natCmp at *
  split_ifs at * <;> simp_all <;> omega

section LexCmp

variable {α : Type} {cmp : α → α → Ordering}

theorem lexCmp_eq_iff (hcmp : ∀ x y, cmp x y = .eq ↔ x = y) :
    ∀ a b : List α, lexCmp cmp a b = .eq ↔ a = b
  | [], [] => by simp [lexCmp]
  | [], _ :: _ => by simp [lexCmp]
  | _ :: _, [] => by simp [lexCmp]
  | x :: xs, y :: ys => by
    simp only [lexCmp]
    cases h : cmp x y with
    | eq =>
      have hxy : x = y := (hcmp x y).1 h
      simp [hxy, lexCmp_eq_iff hcmp xs ys]
    | lt =>
      simp only [List.cons.injEq]
      constructor
      · intro hh; exact absurd hh (by simp)
      · rintro ⟨rfl, rfl⟩
        rw [(hcmp x x).2 rfl] at h
        exact absurd h (by simp)
    | gt =>
      simp only [List.cons.injEq]
      constructor
      · intro hh; exact absurd hh (by simp)
      · rintro ⟨rfl, rfl⟩
        rw [(hcmp x x).2 rfl] at h
        exact absurd h (by simp)

theorem lexCmp_swap (hswap : ∀ x y, cmp x y = (cmp y x).swap) :
    ∀ a b : List α, lexCmp cmp a b = (lexCmp cmp b a).swap
  | [], [] => rfl
  | [], _ :: _ => rfl
  | _ :: _, [] => rfl
  | x :: xs, y :: ys => by
    simp only [lexCmp]
    rw [hswap x y]
    cases h : cmp y x with
    | eq => exact lexCmp_swap hswap xs ys
    | lt => rfl
    | gt => rfl

theorem lexCmp_lt_trans (hcmp : ∀ x y, cmp x y = .eq ↔ x = y)
    (htr : ∀ {x y z}, cmp x y = .lt → cmp y z = .lt → cmp x z = .lt)
    (a : List α) : ∀ b c : List α,
    lexCmp cmp a b = .lt → lexCmp cmp b c = .lt → lexCmp cmp a c = .lt := by
  induction a with
  | nil =>
    intro b c h1 h2
    cases c with
    | cons z zs => rfl
    | nil =>
      cases b with
      | nil => cases h1
      | cons y ys => cases h2
  | cons x xs ih =>
    intro b c h1 h2
    cases b with
    | nil => cases h1
    | cons y ys =>
      cases c with
      | nil => cases h2
      | cons z zs =>
        have e1 : lexCmp cmp (x :: xs) (y :: ys) =
            (match cmp x y with | .eq => lexCmp cmp xs ys | o => o) := rfl
        have e2 : lexCmp cmp (y :: ys) (z :: zs) =
            (match cmp y z with | .eq => lexCmp cmp ys zs | o => o) := rfl
        have e3 : lexCmp cmp (x :: xs) (z :: zs) =
            (match cmp x z with | .eq => lexCmp cmp xs zs | o => o) := rfl
        rw [e1] at h1
        rw [e2] at h2
        rw [e3]
        cases hxy : cmp x y with
        | gt => rw [hxy] at h1; cases h1
        | eq =>
          have hx : x = y := (hcmp x y).1 hxy
          subst hx
          rw [hxy] at h1
          cases hyz : cmp x z with
          | gt => rw [hyz] at h2; cases h2
          | lt => rfl
          | eq =>
            have hy : x = z := (hcmp x z).1 hyz
            subst hy
            rw [hyz] at h2
            exact ih ys zs h1 h2
        | lt =>
          rw [hxy] at h1
          cases hyz : cmp y z with
          | gt => rw [hyz] at h2; cases h2
          | eq =>
            have hy : y = z := (hcmp y z).1 hyz
            subst hy
            rw [hxy]
          | lt => rw [htr hxy hyz]

end LexCmp

theorem bytesCmp_eq_iff {a b : Bytes} : lexCmp natCmp a b = .eq ↔ a = b :=
  lexCmp_eq_iff (fun _ _ => natCmp_eq_iff) a b

theorem pathCmp_eq_iff {a b : FsPath} : pathCmp a b = .eq ↔ a = b :=
  lexCmp_eq_iff (fun _ _ => bytesCmp_eq_iff) a b

theorem pathCmp_swap (a b : FsPath) : pathCmp a b = (pathCmp b a).swap :=
  lexCmp_swap (fun x y => lexCmp_swap natCmp_swap x y) a b

theorem pathCmp_lt_trans {a b c : FsPath} (h1 : pathCmp a b = .lt) (h2 : pathCmp b c = .lt) :
    pathCmp a c = .lt :=
  lexCmp_lt_trans (fun _ _ => bytesCmp_eq_iff)
    (fun hx hy => lexCmp_lt_trans (fun _ _ => natCmp_eq_iff) (fun hu hv => natCmp_lt_trans hu hv) _ _ _ hx hy)
    a b c h1 h2

theorem pathLe_iff {a b : FsPath} : pathLe a b = true ↔ pathCmp a b ≠ .gt := by
  unfold pathLe
  cases pathCmp a b <;> simp

instance : IsTrans FsPath pathLeProp := by
  constructor
  intro a b c h1 h2
  unfold pathLeProp at h1 h2 ⊢
  rw [pathLe_iff] at h1 h2 ⊢
  cases hab : pathCmp a b with
  | gt => exact absurd hab h1
  | eq =>
    have hx : a = b := pathCmp_eq_iff.1 hab
    subst hx; exact h2
  | lt =>
    cases hbc : pathCmp b c with
    | gt => exact absurd hbc h2
    | eq =>
      have hx : b = c := pathCmp_eq_iff.1 hbc
      subst hx
      simp [hab]
    | lt => simp [pathCmp_lt_trans hab hbc]

instance : IsTotal FsPath pathLeProp := by
  constructor
  intro a b
  unfold pathLeProp
  rw [pathLe_iff, pathLe_iff]
  cases hab : pathCmp a b with
  | lt => left; simp
  | eq => left; simp
  | gt =>
    right
    have h := pathCmp_swap a b
    rw [hab] at h
    cases hba : pathCmp b a with
    | lt => simp [hba]
    | eq => rw [hba] at h; cases h
    | gt => rw [hba] at h; cases h

/-! ## Percent-encoding round trip -/

theorem hexVal_hexUpperDigit {n : Nat} (h : n < 16) : hexVal (hexUpperDigit n) = some n := by
  unfold hexVal hexUpperDigit
  split_ifs <;> simp_all <;> omega

theorem percent_decode_encodeByte {b : Nat} (hb : b < 256) (t : Bytes) :
    percent_decode (percentEncodeByte b ++ t) = b :: percent_decode t := by
  have h1 : b / 16 < 16 := by omega
  have h2 : b % 16 < 16 := Nat.mod_lt _ (by omega)
  have hb' : 16 * (b / 16) + b % 16 = b := by omega
  simp [percentEncodeByte, percent_decode, hexVal_hexUpperDigit h1,
    hexVal_hexUpperDigit h2, hb']

theorem percent_decode_cons {b : Nat} (hb : ¬ b = 37) (t : Bytes) :
    percent_decode (b :: t) = b :: percent_decode t := by
  match t with
  | [] => simp [percent_decode]
  | [_] => simp [percent_decode]
  | x :: y :: r => simp [percent_decode, hb]

/-- Round trip of the listing href encoding, for byte strings free of
`%`. -/
theorem percent_roundtrip {s : Bytes} (hb : ∀ b ∈ s, b < 256) (hp : 37 ∉ s) :
    percent_decode (utf8_percent_encode s) = s := by
  induction s with
  | nil => rfl
  | cons b rest ih =>
    have hb' : b < 256 := hb b (by simp)
    have hbr : ∀ x ∈ rest, x < 256 := fun x hx => hb x (by simp [hx])
    have hp' : ¬ b = 37 := fun h => hp (h ▸ List.mem_cons_self b rest)
    have hpr : 37 ∉ rest := fun h => hp (List.mem_cons_of_mem _ h)
    simp only [utf8_percent_encode]
    by_cases hcond : (128 ≤ b || inPathSet b) = true
    · rw [if_pos hcond, percent_decode_encodeByte hb', ih hbr hpr]
    · rw [if_neg hcond, List.singleton_append, percent_decode_cons hp', ih hbr hpr]

/-! ## Concrete test fixtures -/

/-- A world with an empty filesystem; the template oracle wraps title and
body in an html element, the markdown oracle wraps its input in an md
element. -/
def emptyWorld : World :=
  { canonicalize := fun _ => .error .notFound,
    is_dir := fun _ => false,
    open_file := fun _ => .error .notFound,
    metadata := fun _ => .error .notFound,
    read_file := fun _ => .error .notFound,
    read_dir := fun _ => .error .notFound,
    render_template := fun cfg => .ok (ascii "<html>" ++ cfg.title ++ cfg.body ++ ascii "</html>"),
    markdown_to_html := fun s _ => ascii "<md>" ++ s ++ ascii "</md>",
    mime_guess := fun _ => none,
    base64_decode := fun _ => .error () }

/-- A canonical root directory used by the concrete scenarios. -/
def rootDirA : FsPath := [ascii "root"]

/-- Base configuration: extensions off, containment on, no auth. -/
def cfgPlain : Config :=
  { root_dir := rootDirA, use_extensions := false, allow_escape_root := false,
    auth := none }

/-! ## C7: percent-encoding round trip for listing hrefs -/

/-- Claim C7 as amended: for every filename (byte string) containing one of
the special characters of the PATH_SET (space, quote, angle brackets,
backtick, hash, question mark, braces) but containing no percent sign,
percent-decoding the percent-encoded href recovers the filename exactly. -/
theorem c7_href_roundtrip {s : Bytes} (hb : ∀ b ∈ s, b < 256)
    (hchar : ∃ c ∈ s, inPathSet c = true ∧ inControls c = false)
    (hp : 37 ∉ s) :
    percent_decode (utf8_percent_encode s) = s :=
  percent_roundtrip hb hp

/-- Claim C7 counterexample: the filename `%20 ` contains a space (a
member of the claimed character set), yet encoding then decoding yields
two spaces, not the original name: the encode set does not contain `%`,
so a literal `%XX` in the filename is mistaken for an escape by the
decoder. -/
theorem c7_counterexample :
    (32 ∈ ascii "%20 " ∧ inPathSet 32 = true) ∧
    percent_decode (utf8_percent_encode (ascii "%20 ")) ≠ ascii "%20 " := by
  decide

/-- Witness for C7 at the concrete filename `a b<>#?` (space and several
PATH_SET members, no percent sign). -/
theorem c7_href_roundtrip_witness :
    (∀ b ∈ ascii "a b<>#?", b < 256) ∧ 37 ∉ ascii "a b<>#?" ∧
    percent_decode (utf8_percent_encode (ascii "a b<>#?")) = ascii "a b<>#?" :=
  ⟨by decide, by decide, c7_href_roundtrip (by decide) (by decide) (by decide)⟩

/-! ## C4: directory redirect -/

/-- Helper: when the raw path lacks a trailing slash and resolves to a
directory, `try_dir_redirect` produces the 302. -/
theorem try_dir_redirect_dir {w : World} {cfg : Config} {req : HttpRequest} {p : FsPath}
    (h1 : ¬ req.uriPath.getLast? = some 47)
    (h2 : local_path_for_request cfg.root_dir req.uriPath = .ok p)
    (h3 : w.is_dir p = true) :
    try_dir_redirect w cfg req = .ok (some
      { status := 302,
        headers := [(.location, .bytes (req.uriPath ++ [47] ++
          (match req.query with | some q => 63 :: q | none => [])))],
        body := .empty }) := by
  simp only [try_dir_redirect, if_neg h1, h2, h3]
  simp

/-- Helper: a raw path with a trailing slash is never redirected. -/
theorem try_dir_redirect_slash {w : World} {cfg : Config} {req : HttpRequest}
    (h : req.uriPath.getLast? = some 47) :
    try_dir_redirect w cfg req = .ok none := by
  simp [try_dir_redirect, h]

/-- Claim C4: for a request path naming a directory and missing the
trailing slash, the response is a 302 whose Location is the original path
plus `/` plus the original query string unchanged; a path already ending
in `/` is never redirected. -/
theorem c4_dir_redirect (w : World) (cfg : Config) (req : HttpRequest) :
    (req.uriPath.getLast? = some 47 → try_dir_redirect w cfg req = .ok none) ∧
    (∀ p, ¬ req.uriPath.getLast? = some 47 →
      local_path_for_request cfg.root_dir req.uriPath = .ok p →
      w.is_dir p = true → req.query = none →
      try_dir_redirect w cfg req = .ok (some
        { status := 302,
          headers := [(.location, .bytes (req.uriPath ++ [47]))],
          body := .empty })) ∧
    (∀ p q, ¬ req.uriPath.getLast? = some 47 →
      local_path_for_request cfg.root_dir req.uriPath = .ok p →
      w.is_dir p = true → req.query = some q →
      try_dir_redirect w cfg req = .ok (some
        { status := 302,
          headers := [(.location, .bytes (req.uriPath ++ [47] ++ 63 :: q))],
          body := .empty })) := by
  refine ⟨fun h => try_dir_redirect_slash h, ?_, ?_⟩
  · intro p h1 h2 h3 h4
    have h := try_dir_redirect_dir h1 h2 h3
    rw [h4] at h
    simpa using h
  · intro p q h1 h2 h3 h4
    have h := try_dir_redirect_dir h1 h2 h3
    rw [h4] at h
    simpa using h

/-- The directory `root/docs` existing in the filesystem. -/
def worldC4 : World := { emptyWorld with is_dir := fun p => p == [ascii "root", ascii "docs"] }

/-- GET `/docs?x=1`. -/
def reqC4 : HttpRequest :=
  { method := .GET, uriPath := ascii "/docs", query := some (ascii "x=1"),
    authorization := none }

/-- Witness for C4: GET `/docs?x=1` against a root containing directory
`docs` redirects to `/docs/?x=1`. -/
theorem c4_dir_redirect_witness :
    try_dir_redirect worldC4 cfgPlain reqC4 = .ok (some
      { status := 302,
        headers := [(.location, .bytes (ascii "/docs/?x=1"))],
        body := .empty }) := by
  have h := (c4_dir_redirect worldC4 cfgPlain reqC4).2.2
    [ascii "root", ascii "docs"] (ascii "x=1") (by decide) (by decide) (by decide) rfl
  exact h.trans (by decide)

/-! ## Pipeline reduction helpers -/

/-- For a GET request with no configured password, `serve_or_error` is the
file pipeline followed by the extension chain. -/
theorem serve_or_error_get_noauth {w : World} {cfg : Config} {req : HttpRequest}
    (hm : req.method = .GET) (ha : cfg.auth = none) :
    serve_or_error w cfg req = ext_serve w cfg req (serve_file w cfg req) := by
  simp [serve_or_error, handle_unsupported_request, get_unsupported_request_message, hm,
    check_auth, ha]

/-- With extensions disabled the extension chain passes the primary
outcome through unchanged. -/
theorem ext_serve_off {w : World} {cfg : Config} {req : HttpRequest}
    {resp : Except Error HttpResponse} (h : cfg.use_extensions = false) :
    ext_serve w cfg req resp = resp := by
  simp [ext_serve, h]

/-- An error page renders successfully whenever the template oracle
succeeds on the status line. -/
theorem make_error_response_from_code_ok {w : World} {s : Nat} {b : Bytes}
    (hr : w.render_template { title := statusDisplay s, body := [] } = .ok b) :
    make_error_response_from_code w s = .ok
      { status := s,
        headers := [(.contentLength, .nat b.length), (.contentType, .bytes (ascii "text/html"))],
        body := .bytes b } := by
  simp [make_error_response_from_code, make_error_response_from_code_and_headers,
    render_error_html, render_html, hr, html_str_to_response_with_headers]

/-- When the path resolves to a non-directory, `serve_file` is
`respond_with_file` on the resolved path (no redirect, no index append). -/
theorem try_dir_redirect_nodir {w : World} {cfg : Config} {req : HttpRequest} {p : FsPath}
    (h2 : local_path_for_request cfg.root_dir req.uriPath = .ok p)
    (h3 : w.is_dir p = false) :
    try_dir_redirect w cfg req = .ok none := by
  unfold try_dir_redirect
  by_cases h1 : req.uriPath.getLast? = some 47
  · rw [if_pos h1]
  · rw [if_neg h1, h2]
    simp [h3]

theorem serve_file_plain {w : World} {cfg : Config} {req : HttpRequest} {p : FsPath}
    (h2 : local_path_for_request cfg.root_dir req.uriPath = .ok p)
    (h3 : w.is_dir p = false) :
    serve_file w cfg req = respond_with_file w cfg p := by
  rw [serve_file, try_dir_redirect_nodir h2 h3]
  simp [local_path_with_maybe_index, h2, Except.map, h3]

/-! ## C1: root-directory containment -/

/-- Claim C1 as amended: with extensions disabled, for a request resolving
to a non-directory path, if canonicalization succeeds and yields a path
outside the canonical root while `allow_escape_root` is off, the final
response is 403; if the target does not exist, canonicalization itself
fails and the final response is 404 instead — the 403 is not independent
of the target existing. -/
theorem c1_outside_root (w : World) (cfg : Config) (req : HttpRequest) (p : FsPath)
    (hm : req.method = .GET) (ha : cfg.auth = none) (hx : cfg.use_extensions = false)
    (h2 : local_path_for_request cfg.root_dir req.uriPath = .ok p)
    (h3 : w.is_dir p = false) :
    (∀ pc b, w.canonicalize p = .ok pc → cfg.root_dir.isPrefixOf pc = false →
      cfg.allow_escape_root = false →
      w.render_template { title := statusDisplay 403, body := [] } = .ok b →
      (serve w cfg req).status = 403) ∧
    (∀ b, w.canonicalize p = .error .notFound →
      w.render_template { title := statusDisplay 404, body := [] } = .ok b →
      (serve w cfg req).status = 404) := by
  have hs : serve w cfg req = transform_error w (respond_with_file w cfg p) := by
    rw [serve, serve_or_error_get_noauth hm ha, ext_serve_off hx, serve_file_plain h2 h3]
  constructor
  · intro pc b hc hpre hesc hr
    have hresp : respond_with_file w cfg p = .error .EntityNotInRoot := by
      simp [respond_with_file, check_in_root_dir, hc, hpre, hesc]
    rw [hs, hresp]
    simp only [transform_error]
    rw [show make_error_response w .EntityNotInRoot = make_error_response_from_code w 403
      from rfl, make_error_response_from_code_ok hr]
  · intro b hc hr
    have hresp : respond_with_file w cfg p = .error (.Io .notFound) := by
      simp [respond_with_file, check_in_root_dir, hc]
    rw [hs, hresp]
    simp only [transform_error]
    rw [show make_error_response w (.Io .notFound) = make_error_response_from_code w 404
      from rfl, make_error_response_from_code_ok hr]

/-- Extensions-enabled variant of the base configuration. -/
def cfgExt : Config := { cfgPlain with use_extensions := true }

/-- The path `root/../x.md`, outside the root. -/
def pOutsideMd : FsPath := [ascii "root", ascii "..", ascii "x.md"]

/-- A world where `root/../x.md` exists (canonicalizing to `/x.md`)
and is readable; everything else is absent. -/
def worldC1 : World :=
  { emptyWorld with
    read_file := fun p => if p == pOutsideMd then .ok (ascii "# hi") else .error .notFound,
    canonicalize := fun p => if p == pOutsideMd then .ok [ascii "x.md"] else .error .notFound }

/-- Counterexample refuting claim C1 as stated ("regardless of whether the
target exists", for every request): GET `/../secret` for a nonexistent
outside path is answered 404, not 403 (canonicalization fails first), and
with extensions on, GET `/../x.md` for an existing outside markdown file
is answered 200 — the markdown extension never consults the containment
check. -/
theorem c1_counterexample :
    (serve emptyWorld cfgPlain
      { method := .GET, uriPath := ascii "/../secret", query := none,
        authorization := none }).status = 404 ∧
    (serve worldC1 cfgExt
      { method := .GET, uriPath := ascii "/../x.md", query := none,
        authorization := none }).status = 200 := by
  decide

/-- The path `root/../private`, outside the root. -/
def pOutside : FsPath := [ascii "root", ascii "..", ascii "private"]

/-- A world where `root/../private` exists, canonicalizing to
`/private`. -/
def worldC1W : World :=
  { emptyWorld with
    canonicalize := fun p => if p == pOutside then .ok [ascii "private"] else .error .notFound }

/-- Witness for C1: GET `/../private` against an existing outside file is
answered 403. -/
theorem c1_outside_root_witness :
    (serve worldC1W cfgPlain
      { method := .GET, uriPath := ascii "/../private", query := none,
        authorization := none }).status = 403 := by
  have h := c1_outside_root worldC1W cfgPlain
    { method := .GET, uriPath := ascii "/../private", query := none, authorization := none }
    pOutside rfl rfl rfl (by decide) rfl
  exact h.1 [ascii "private"] _ (by decide) (by decide) rfl rfl

/-! ## C2: no single-page-app fallback exists -/

/-- Claim C2 as amended: the code implements no single-page-app mode (the
configuration has no such flag).  With extensions enabled, when the
primary outcome is an I/O NotFound failure and the resolved path neither
has extension `md` nor names an existing directory, the NotFound
propagates (wrapped by the extension chain) and the final status is 404 —
for every world, in particular whenever a root-level `index.html`
exists. -/
theorem c2_no_spa (w : World) (cfg : Config) (req : HttpRequest) (p : FsPath) (b : Bytes)
    (hx : cfg.use_extensions = true)
    (h2 : local_path_for_request cfg.root_dir req.uriPath = .ok p)
    (hmd : ¬ (path_extension p).getD [] = ascii "md")
    (hmeta : w.metadata p = .error .notFound)
    (hr : w.render_template { title := statusDisplay 404, body := [] } = .ok b) :
    ext_serve w cfg req (.error (.Io .notFound)) = .error (.Ext (.Io .notFound)) ∧
    (transform_error w (ext_serve w cfg req (.error (.Io .notFound)))).status = 404 := by
  have hext : ext_serve w cfg req (.error (.Io .notFound)) = .error (.Ext (.Io .notFound)) := by
    simp only [ext_serve, hx, h2]
    rw [if_neg hmd]
    simp [maybe_list_dir, hmeta]
  refine ⟨hext, ?_⟩
  rw [hext]
  simp only [transform_error]
  rw [show make_error_response w (.Ext (.Io .notFound)) = make_error_response_from_code w 404
    from rfl, make_error_response_from_code_ok hr]

/-- A world where the root-level `index.html` exists with known content;
nothing else exists. -/
def worldC2 : World :=
  { emptyWorld with
    open_file := fun p =>
      if p == [ascii "root", ascii "index.html"] then .ok (ascii "<h1>hi</h1>")
      else .error .notFound }

/-- Counterexample refuting claim C2 as stated: extensions enabled, the
primary outcome for GET `/missing` is NotFound, a root-level `index.html`
exists — yet the final status is 404, not 200 with the index content:
the code has no single-page-app fallback. -/
theorem c2_counterexample :
    worldC2.open_file [ascii "root", ascii "index.html"] = .ok (ascii "<h1>hi</h1>") ∧
    (serve worldC2 cfgExt
      { method := .GET, uriPath := ascii "/missing", query := none,
        authorization := none }).status = 404 := by
  decide

/-- Witness for C2's amended statement at GET `/missing` in the world
where the root `index.html` exists. -/
theorem c2_no_spa_witness :
    ext_serve worldC2 cfgExt
      { method := .GET, uriPath := ascii "/missing", query := none, authorization := none }
      (.error (.Io .notFound)) = .error (.Ext (.Io .notFound)) :=
  (c2_no_spa worldC2 cfgExt
    { method := .GET, uriPath := ascii "/missing", query := none, authorization := none }
    [ascii "root", ascii "missing"] _ rfl (by decide) (by decide) rfl rfl).1

/-! ## C3: error translation -/

/-- Claim C3 as amended: a non-UTF-8 percent-decoded path fails resolution
with `UriNotUtf8` and a path without a leading `/` fails with
`UriNotAbsolute`; the translator maps I/O NotFound (plain or
extension-wrapped) to 404, `EntityNotInRoot` to 403, and everything else —
including the two resolution failures, which therefore surface as 500, not
400 — to 500. -/
theorem c3_error_translation (w : World) (root_dir : FsPath) (uriPath : Bytes)
    (b404 b403 b500 : Bytes)
    (h404 : w.render_template { title := statusDisplay 404, body := [] } = .ok b404)
    (h403 : w.render_template { title := statusDisplay 403, body := [] } = .ok b403)
    (h500 : w.render_template { title := statusDisplay 500, body := [] } = .ok b500) :
    (utf8Valid (percent_decode (uriPath.takeWhile (· ≠ 63))) = false →
      local_path_for_request root_dir uriPath = .error .UriNotUtf8) ∧
    (utf8Valid (percent_decode (uriPath.takeWhile (· ≠ 63))) = true →
      ¬ (percent_decode (uriPath.takeWhile (· ≠ 63))).head? = some 47 →
      local_path_for_request root_dir uriPath = .error .UriNotAbsolute) ∧
    (∀ r, make_error_response w (.Io .notFound) = .ok r → r.status = 404) ∧
    (∀ r, make_error_response w (.Ext (.Io .notFound)) = .ok r → r.status = 404) ∧
    (∀ r, make_error_response w (.Io .otherError) = .ok r → r.status = 500) ∧
    (∀ r, make_error_response w .EntityNotInRoot = .ok r → r.status = 403) ∧
    (∀ r, make_error_response w .UriNotUtf8 = .ok r → r.status = 500) ∧
    (∀ r, make_error_response w .UriNotAbsolute = .ok r → r.status = 500) ∧
    (∀ r, make_error_response w .TemplateRender = .ok r → r.status = 500) := by
  have e404 := make_error_response_from_code_ok h404
  have e403 := make_error_response_from_code_ok h403
  have e500 := make_error_response_from_code_ok h500
  refine ⟨?_, ?_, ?_, ?_, ?_, ?_, ?_, ?_, ?_⟩
  · intro h
    unfold local_path_for_request
    simp only [h]
    simp
  · intro h hh
    unfold local_path_for_request
    simp only [h]
    simp only [if_true]
    rw [if_neg hh]
  · intro r h
    rw [show make_error_response w (.Io .notFound) = make_error_response_from_code w 404
      from rfl, e404] at h
    cases h; rfl
  · intro r h
    rw [show make_error_response w (.Ext (.Io .notFound)) = make_error_response_from_code w 404
      from rfl, e404] at h
    cases h; rfl
  · intro r h
    rw [show make_error_response w (.Io .otherError) = make_error_response_from_code w 500
      from rfl, e500] at h
    cases h; rfl
  · intro r h
    rw [show make_error_response w .EntityNotInRoot = make_error_response_from_code w 403
      from rfl, e403] at h
    cases h; rfl
  · intro r h
    rw [show make_error_response w .UriNotUtf8 = make_error_response_from_code w 500
      from rfl, e500] at h
    cases h; rfl
  · intro r h
    rw [show make_error_response w .UriNotAbsolute = make_error_response_from_code w 500
      from rfl, e500] at h
    cases h; rfl
  · intro r h
    rw [show make_error_response w .TemplateRender = make_error_response_from_code w 500
      from rfl, e500] at h
    cases h; rfl

/-- Counterexample refuting claim C3 as stated: GET `/%FF` (a path whose
percent-decoded form is not UTF-8) is answered with status 500, not 400
or 404 — the catch-all of `make_error_response` sends `UriNotUtf8` to the
internal-server-error branch. -/
theorem c3_counterexample :
    (serve emptyWorld cfgPlain
      { method := .GET, uriPath := ascii "/%FF", query := none,
        authorization := none }).status = 500 ∧
    ¬ (serve emptyWorld cfgPlain
      { method := .GET, uriPath := ascii "/%FF", query := none,
        authorization := none }).status = 400 := by
  decide

/-- Witness for C3 at the request path `/%FF` and the empty-filesystem
world. -/
theorem c3_error_translation_witness :
    utf8Valid (percent_decode ((ascii "/%FF").takeWhile (· ≠ 63))) = false ∧
    local_path_for_request rootDirA (ascii "/%FF") = .error .UriNotUtf8 ∧
    (∀ r, make_error_response emptyWorld .UriNotUtf8 = .ok r → r.status = 500) := by
  have h := c3_error_translation emptyWorld rootDirA (ascii "/%FF") _ _ _ rfl rfl rfl
  exact ⟨by decide, h.1 (by decide), h.2.2.2.2.2.2.1⟩

/-! ## C8: totality of the error translator -/

/-- Claim C8: the error-to-response translation is total: a success passes
through, a translatable error becomes its rendered page, and a failure
while rendering the error page itself does not propagate — the fallback is
a bare-text response carrying the error message, so some response is
produced for every outcome. -/
theorem c8_transform_error_total (w : World) :
    (∀ r, transform_error w (.ok r) = r) ∧
    (∀ e r, make_error_response w e = .ok r → transform_error w (.error e) = r) ∧
    (∀ e e2, make_error_response w e = .error e2 →
      transform_error w (.error e) =
        { status := 200, headers := [],
          body := .bytes (ascii "unexpected internal error: " ++ errorDisplay e2) }) := by
  refine ⟨fun r => rfl, ?_, ?_⟩
  · intro e r h
    rw [transform_error, h]
  · intro e e2 h
    rw [transform_error, h]

/-- A world whose template renderer always fails. -/
def worldC8 : World := { emptyWorld with render_template := fun _ => .error () }

/-- Witness for C8: with a failing renderer, translating `UriNotUtf8`
falls back to the bare-text response naming the template failure. -/
theorem c8_transform_error_total_witness :
    transform_error worldC8 (.error .UriNotUtf8) =
      { status := 200, headers := [],
        body := .bytes (ascii "unexpected internal error: failed to render template") } := by
  have h := (c8_transform_error_total worldC8).2.2 .UriNotUtf8 .TemplateRender (by decide)
  exact h.trans (by decide)

/-! ## C9: basic-auth challenge -/

/-- Auth configured as `user:pass`. -/
def cfgAuth : Config :=
  { cfgPlain with auth := some { username := ascii "user", password := ascii "pass" } }

/-- GET `/` with no Authorization header. -/
def reqNoAuth : HttpRequest :=
  { method := .GET, uriPath := ascii "/", query := none, authorization := none }

/-- Claim C9, at the failing input: with a credential configured and no
Authorization header, the response is 401 and carries a WWW-Authenticate
header — but its value spells the parameter `relm`, not the HTTP
parameter `realm` the claim (and RFC 7617) requires. -/
theorem c9_auth_challenge :
    (serve emptyWorld cfgAuth reqNoAuth).status = 401 ∧
    (serve emptyWorld cfgAuth reqNoAuth).headers.lookup .wwwAuthenticate =
      some (.bytes wwwAuthenticateValue) ∧
    (ascii "Basic relm=").isPrefixOf wwwAuthenticateValue = true ∧
    (ascii "Basic realm=").isPrefixOf wwwAuthenticateValue = false := by
  decide

/-! ## C5: markdown rendering -/

/-- Helper: with extensions on and a resolved `md` path, the extension
chain is the markdown renderer, whatever the primary outcome was. -/
theorem ext_serve_md {w : World} {cfg : Config} {req : HttpRequest} {p : FsPath}
    (hx : cfg.use_extensions = true)
    (h2 : local_path_for_request cfg.root_dir req.uriPath = .ok p)
    (hmd : (path_extension p).getD [] = ascii "md")
    (resp : Except Error HttpResponse) :
    ext_serve w cfg req resp =
      match md_path_to_html w p with
      | .error e => .error (.Ext e)
      | .ok r => .ok r := by
  simp only [ext_serve, hx, h2]
  rw [if_pos hmd]
  simp

/-- Claim C5: for a resolved path with extension `md` (extensions on), the
extension chain ignores the primary outcome entirely; the file is read and
must be UTF-8 (failing with the markdown-specific `MarkdownUtf8` error,
which translates to 500, otherwise); the content is rendered with the
GitHub-flavored comrak options — heading ids prefixed `user-content-`,
autolink, tables, strikethrough, task lists, tag filter, fenced-code
language tagging — wrapped in the shared template and answered as 200
text/html. -/
theorem c5_markdown (w : World) (cfg : Config) (req : HttpRequest) (p : FsPath)
    (hx : cfg.use_extensions = true)
    (h2 : local_path_for_request cfg.root_dir req.uriPath = .ok p)
    (hmd : (path_extension p).getD [] = ascii "md") :
    (∀ resp resp2, ext_serve w cfg req resp = ext_serve w cfg req resp2) ∧
    (∀ buf resp, w.read_file p = .ok buf → utf8Valid buf = false →
      ext_serve w cfg req resp = .error (.Ext .MarkdownUtf8)) ∧
    (∀ buf out resp, w.read_file p = .ok buf → utf8Valid buf = true →
      w.render_template
        { title := [], body := w.markdown_to_html buf mdComrakOptions } = .ok out →
      ext_serve w cfg req resp = .ok
        { status := 200,
          headers := [(.contentLength, .nat out.length),
                      (.contentType, .bytes (ascii "text/html"))],
          body := .bytes out }) ∧
    (∀ b r, w.render_template { title := statusDisplay 500, body := [] } = .ok b →
      make_error_response w (.Ext .MarkdownUtf8) = .ok r → r.status = 500) ∧
    mdComrakOptions.ext_header_ids = some (ascii "user-content-") ∧
    (mdComrakOptions.ext_autolink = true ∧ mdComrakOptions.ext_table = true ∧
     mdComrakOptions.ext_strikethrough = true ∧ mdComrakOptions.ext_tasklist = true ∧
     mdComrakOptions.ext_tagfilter = true ∧ mdComrakOptions.github_pre_lang = true) := by
  refine ⟨?_, ?_, ?_, ?_, rfl, by decide⟩
  · intro r1 r2
    rw [ext_serve_md hx h2 hmd, ext_serve_md hx h2 hmd]
  · intro buf resp hread hutf
    rw [ext_serve_md hx h2 hmd]
    simp only [md_path_to_html, hread, hutf]
    simp
  · intro buf out resp hread hutf hr
    rw [ext_serve_md hx h2 hmd]
    simp only [md_path_to_html, hread, hutf, render_html, hr]
    simp
  · intro b r hb hr
    rw [show make_error_response w (.Ext .MarkdownUtf8) = make_error_response_from_code w 500
      from rfl, make_error_response_from_code_ok hb] at hr
    cases hr; rfl

/-- A world where `root/notes.md` contains `# Hi`. -/
def worldC5 : World :=
  { emptyWorld with
    read_file := fun p =>
      if p == [ascii "root", ascii "notes.md"] then .ok (ascii "# Hi")
      else .error .notFound }

/-- GET `/notes.md`. -/
def reqC5 : HttpRequest :=
  { method := .GET, uriPath := ascii "/notes.md", query := none, authorization := none }

/-- Witness for C5: GET `/notes.md` produces the rendered markdown page
with status 200 and text/html, independently of the primary outcome. -/
theorem c5_markdown_witness :
    ext_serve worldC5 cfgExt reqC5 (.error (.Io .notFound)) =
      ext_serve worldC5 cfgExt reqC5 (.ok { status := 503, headers := [], body := .empty }) ∧
    ext_serve worldC5 cfgExt reqC5 (.error (.Io .notFound)) = .ok
      { status := 200,
        headers := [(.contentLength, .nat (ascii "<html><md># Hi</md></html>").length),
                    (.contentType, .bytes (ascii "text/html"))],
        body := .bytes (ascii "<html><md># Hi</md></html>") } := by
  have h := c5_markdown worldC5 cfgExt reqC5 [ascii "root", ascii "notes.md"]
    rfl (by decide) (by decide)
  exact ⟨h.1 _ _,
    (h.2.2.1 (ascii "# Hi") _ (.error (.Io .notFound)) rfl (by decide) rfl).trans (by decide)⟩

/-! ## C6: directory listing -/

/-- `isPrefixOf` survives appending to the longer list. -/
theorem isPrefixOf_append {α : Type} [BEq α] :
    ∀ {l p : List α}, l.isPrefixOf p = true → ∀ t, l.isPrefixOf (p ++ t) = true
  | [], _, _, _ => by simp [List.isPrefixOf]
  | _ :: _, [], h, _ => by cases h
  | a :: as, b :: bs, h, t => by
    simp only [List.isPrefixOf, List.cons_append, Bool.and_eq_true] at h ⊢
    exact ⟨h.1, isPrefixOf_append h.2 t⟩

/-- The sorted immediate children of a directory read: erroring entries
dropped, the remainder sorted by path order. -/
def sortedChildren (dents : List (Option FsPath)) : List FsPath :=
  (dents.filterMap id).insertionSort pathLeProp

/-- The body handed to the template by the directory listing. -/
def listingBody (root_dir p : FsPath) (dents : List (Option FsPath)) : Bytes :=
  ascii "<div>\n" ++
    (((p ++ [ascii ".."]) :: sortedChildren dents).map
      (fun q => (dir_list_line_content root_dir q).getD [])).flatten ++
    ascii "</div>\n"

/-- When every path strips against the root, the listing loop succeeds and
yields the concatenated lines. -/
theorem dir_list_lines_ok {root_dir : FsPath} : ∀ {paths : List FsPath},
    (∀ q ∈ paths, root_dir.isPrefixOf q = true) →
    dir_list_lines root_dir paths =
      .ok ((paths.map (fun q => (dir_list_line_content root_dir q).getD [])).flatten)
  | [], _ => rfl
  | q :: rest, h => by
    have hq : root_dir.isPrefixOf q = true := h q (List.mem_cons_self q rest)
    have hrest := @dir_list_lines_ok root_dir rest
      (fun x hx => h x (List.mem_cons_of_mem _ hx))
    simp only [dir_list_lines, dir_list_line, if_pos hq, hrest]
    simp

/-- `make_dir_list_body` succeeds when stripping succeeds and the template
renders. -/
theorem make_dir_list_body_ok {w : World} {root_dir : FsPath} {paths : List FsPath}
    {out : Bytes}
    (h : ∀ q ∈ paths, root_dir.isPrefixOf q = true)
    (hr : w.render_template
      { title := [],
        body := ascii "<div>\n" ++
          (paths.map (fun q => (dir_list_line_content root_dir q).getD [])).flatten ++
          ascii "</div>\n" } = .ok out) :
    make_dir_list_body w root_dir paths = .ok out := by
  simp only [make_dir_list_body, dir_list_lines_ok h, render_html, hr]

/-- `Path::file_name` of a path ending in `..` is `None`. -/
theorem path_file_name_dotdot (p : FsPath) : path_file_name (p ++ [ascii ".."]) = none := by
  simp [path_file_name, List.getLast?_concat]

/-- The `..` entry always produces its parent-directory line (via the
`maybe_dot_dot` fallback) when its stripped URL is UTF-8. -/
theorem dotdot_line_content {root_dir p : FsPath}
    (hutf : utf8Valid (joinComponents ((p ++ [ascii ".."]).drop root_dir.length)) = true) :
    dir_list_line_content root_dir (p ++ [ascii ".."]) =
      some (ascii "<div><a href=\x27/" ++
        utf8_percent_encode (joinComponents ((p ++ [ascii ".."]).drop root_dir.length)) ++
        ascii "\x27>" ++ ascii ".." ++ ascii "</a></div>\n") := by
  have hdd : utf8Valid (ascii "..") = true := by decide
  simp only [dir_list_line_content, path_file_name_dotdot, List.getLast?_concat]
  simp [hdd, hutf]

/-- Claim C6: with extensions on, when the primary outcome is NotFound and
the resolved path names an existing directory, the chain answers 200
text/html with the rendered listing; the listed children are the readable
entries in sorted order (a deterministic order); the listing opens with
the `..` parent link; and an entry whose file name is not UTF-8 yields no
line — without aborting the listing. -/
theorem c6_dir_listing (w : World) (cfg : Config) (req : HttpRequest) (p : FsPath)
    (m : FsMeta) (dents : List (Option FsPath)) (out : Bytes)
    (hx : cfg.use_extensions = true)
    (h2 : local_path_for_request cfg.root_dir req.uriPath = .ok p)
    (hmd : ¬ (path_extension p).getD [] = ascii "md")
    (hmeta : w.metadata p = .ok m) (hdir : m.is_dir = true)
    (hread : w.read_dir p = .ok dents)
    (hpre : cfg.root_dir.isPrefixOf p = true)
    (hpres : ∀ q ∈ dents.filterMap id, cfg.root_dir.isPrefixOf q = true)
    (hr : w.render_template
      { title := [], body := listingBody cfg.root_dir p dents } = .ok out) :
    ext_serve w cfg req (.error (.Io .notFound)) = .ok
      { status := 200,
        headers := [(.contentLength, .nat out.length),
                    (.contentType, .bytes (ascii "text/html"))],
        body := .bytes out } ∧
    List.Sorted pathLeProp (sortedChildren dents) ∧
    List.Perm (sortedChildren dents) (dents.filterMap id) ∧
    listingBody cfg.root_dir p dents =
      ascii "<div>\n" ++
        ((dir_list_line_content cfg.root_dir (p ++ [ascii ".."])).getD [] ++
          ((sortedChildren dents).map
            (fun q => (dir_list_line_content cfg.root_dir q).getD [])).flatten) ++
      ascii "</div>\n" ∧
    (utf8Valid (joinComponents ((p ++ [ascii ".."]).drop cfg.root_dir.length)) = true →
      dir_list_line_content cfg.root_dir (p ++ [ascii ".."]) =
        some (ascii "<div><a href=\x27/" ++
          utf8_percent_encode (joinComponents ((p ++ [ascii ".."]).drop cfg.root_dir.length)) ++
          ascii "\x27>" ++ ascii ".." ++ ascii "</a></div>\n")) ∧
    (∀ q f, path_file_name q = some f → utf8Valid f = false →
      dir_list_line_content cfg.root_dir q = none) := by
  have hall : ∀ q ∈ (p ++ [ascii ".."]) :: sortedChildren dents,
      cfg.root_dir.isPrefixOf q = true := by
    intro q hq
    rcases List.mem_cons.1 hq with rfl | hq'
    · exact isPrefixOf_append hpre _
    · exact hpres q ((List.mem_insertionSort pathLeProp).1 hq')
  have hmdlb : make_dir_list_body w cfg.root_dir
      ((p ++ [ascii ".."]) :: sortedChildren dents) = .ok out :=
    make_dir_list_body_ok hall (by simpa [listingBody] using hr)
  have hld : list_dir w cfg.root_dir p = .ok
      { status := 200,
        headers := [(.contentLength, .nat out.length),
                    (.contentType, .bytes (ascii "text/html"))],
        body := .bytes out } := by
    simp only [list_dir, hread]
    rw [show ((dents.filterMap id).insertionSort pathLeProp : List FsPath) =
      sortedChildren dents from rfl, hmdlb]
    simp [html_str_to_response, html_str_to_response_with_headers]
  have hmld : maybe_list_dir w cfg.root_dir p = .ok (some
      { status := 200,
        headers := [(.contentLength, .nat out.length),
                    (.contentType, .bytes (ascii "text/html"))],
        body := .bytes out }) := by
    simp only [maybe_list_dir, hmeta, hdir]
    rw [hld]
    simp
  refine ⟨?_, ?_, ?_, ?_, fun hutf => dotdot_line_content hutf, ?_⟩
  · simp only [ext_serve, hx, h2]
    rw [if_neg hmd]
    simp [hmld]
  · exact List.sorted_insertionSort pathLeProp _
  · exact List.perm_insertionSort pathLeProp _
  · simp [listingBody]
  · intro q f hq hf
    simp only [dir_list_line_content, hq]
    simp [hf]

/-- The directory `root/dir`. -/
def pDirC6 : FsPath := [ascii "root", ascii "dir"]

/-- Its raw entries: two regular names (out of order), a name that is not
UTF-8, and one erroring entry. -/
def dentsC6 : List (Option FsPath) :=
  [some [ascii "root", ascii "dir", ascii "b.txt"],
   some [ascii "root", ascii "dir", [255]],
   none,
   some [ascii "root", ascii "dir", ascii "a.txt"]]

/-- A world containing exactly that directory. -/
def worldC6 : World :=
  { emptyWorld with
    metadata := fun p =>
      if p == pDirC6 then .ok { is_dir := true, len := 0 } else .error .notFound,
    read_dir := fun p => if p == pDirC6 then .ok dentsC6 else .error .notFound }

/-- GET `/dir`. -/
def reqC6 : HttpRequest :=
  { method := .GET, uriPath := ascii "/dir", query := none, authorization := none }

/-- Witness for C6 at GET `/dir`: 200 text/html with the rendered listing;
the children are sorted; the non-UTF-8 entry contributes no line yet the
listing succeeds. -/
theorem c6_dir_listing_witness :
    ext_serve worldC6 cfgExt reqC6 (.error (.Io .notFound)) = .ok
      { status := 200,
        headers := [(.contentLength,
                      .nat (ascii "<html>" ++ listingBody rootDirA pDirC6 dentsC6 ++
                        ascii "</html>").length),
                    (.contentType, .bytes (ascii "text/html"))],
        body := .bytes (ascii "<html>" ++ listingBody rootDirA pDirC6 dentsC6 ++
          ascii "</html>") } ∧
    List.Sorted pathLeProp (sortedChildren dentsC6) ∧
    dir_list_line_content rootDirA [ascii "root", ascii "dir", [255]] = none := by
  have h := c6_dir_listing worldC6 cfgExt reqC6 pDirC6 { is_dir := true, len := 0 }
    dentsC6 _ rfl (by decide) (by decide) (by decide) rfl (by decide) (by decide)
    (by decide) rfl
  exact ⟨h.1, h.2.1, h.2.2.2.2.2 _ [255] (by decide) (by decide)⟩

/-! ## C10: redirect decision runs before the containment check -/

/-- Claim C10: for a no-trailing-slash URI whose joined path names an
existing directory, `serve_file` answers the 302 redirect without any
containment check — even when the directory lies outside the root and
`allow_escape_root` is off — while `respond_with_file` on the same path
would fail with `EntityNotInRoot`; containment is enforced only there. -/
theorem c10_redirect_before_containment (w : World) (cfg : Config) (req : HttpRequest)
    (p : FsPath)
    (h1 : ¬ req.uriPath.getLast? = some 47)
    (h2 : local_path_for_request cfg.root_dir req.uriPath = .ok p)
    (h3 : w.is_dir p = true) :
    serve_file w cfg req = .ok
      { status := 302,
        headers := [(.location, .bytes (req.uriPath ++ [47] ++
          (match req.query with | some q => 63 :: q | none => [])))],
        body := .empty } ∧
    (∀ pc, w.canonicalize p = .ok pc → cfg.root_dir.isPrefixOf pc = false →
      cfg.allow_escape_root = false →
      respond_with_file w cfg p = .error .EntityNotInRoot) := by
  constructor
  · have h := try_dir_redirect_dir h1 h2 h3
    simp only [serve_file, h]
  · intro pc hc hpre hesc
    simp [respond_with_file, check_in_root_dir, hc, hpre, hesc]

/-- A directory `outside`, sibling of the root, reachable as
`root/../outside`. -/
def worldC10 : World :=
  { emptyWorld with
    is_dir := fun p => p == [ascii "root", ascii "..", ascii "outside"],
    canonicalize := fun p =>
      if p == [ascii "root", ascii "..", ascii "outside"] then .ok [ascii "outside"]
      else .error .notFound }

/-- GET `/../outside`. -/
def reqC10 : HttpRequest :=
  { method := .GET, uriPath := ascii "/../outside", query := none, authorization := none }

/-- Witness for C10: GET `/../outside` (an existing directory outside the
root, containment on) is answered with a 302 to `/../outside/`, revealing
its existence, although `respond_with_file` on that path is Forbidden. -/
theorem c10_redirect_before_containment_witness :
    serve_file worldC10 cfgPlain reqC10 = .ok
      { status := 302,
        headers := [(.location, .bytes (ascii "/../outside/"))],
        body := .empty } ∧
    respond_with_file worldC10 cfgPlain [ascii "root", ascii "..", ascii "outside"] =
      .error .EntityNotInRoot := by
  have h := c10_redirect_before_containment worldC10 cfgPlain reqC10
    [ascii "root", ascii "..", ascii "outside"] (by decide) (by decide) (by decide)
  exact ⟨h.1.trans (by decide), h.2 [ascii "outside"] (by decide) (by decide) rfl⟩

end BHS
